import Mathlib

/-!
Verification of the Demikernel LibOS slice: the Catloop (shared-memory
transport) connection-establishment state machines, the Catmem pop path,
the DPDK transmit path, and the queue-layer listen/wait/close semantics.

Pure fragments of the Rust source are embedded as executable Lean
definitions; machine integers are modelled as `Nat` with explicit
`% 2 ^ w` arithmetic where the source performs bit operations.
-/

/-! ## POSIX errno values (Linux) and the `Fail` error type -/

def EBADF : Nat := 9
def EAGAIN : Nat := 11
def ENOMEM : Nat := 12
def EDESTADDRREQ : Nat := 89
def EADDRINUSE : Nat := 98
def ETIMEDOUT : Nat := 110
def ECONNREFUSED : Nat := 111
def ECANCELED : Nat := 125

/-- Platform `SOMAXCONN` (Linux default). -/
def SOMAXCONN : Nat := 128

/-- Error value carrying a POSIX errno and a human-readable cause
(`runtime::fail::Fail`). -/
structure Fail where
  errno : Nat
  cause : String
deriving DecidableEq, Repr

/-- Spec section 7 classifies *resource* errors (out of memory / descriptors)
as retriable after backoff. -/
def errnoRetriable (e : Nat) : Bool :=
  e == ENOMEM || e == EAGAIN

/-! ## Catloop client connect state machine (`catloop/futures/connect.rs`) -/

/-- Queue tokens are opaque 64-bit identifiers; values stay far below
`2 ^ 64` in every statement below. -/
abbrev QToken : Type := Nat

/-- Maximum number of connection attempts
(`connect.rs`, `MAX_ACK_RECEIVED_ATTEMPTS`). -/
def MAX_ACK_RECEIVED_ATTEMPTS : Nat := 1024

/-- Default `handshake_retries` for the TCP stack
(`catnip/src/protocols/tcp/options.rs`, `TcpOptions::default`). -/
def tcpDefaultHandshakeRetries : Nat := 5

/-- Client-side states in the connection establishment protocol
(`connect.rs`, `enum ClientState`). The `Connected` payloads that the
claims never inspect (remote address, duplex pipe) are elided. -/
inductive ClientState where
  | initiateConnectRequest (qtRx : Option QToken)
  | connectRequestSent (qtTx : QToken) (qtRx : Option QToken)
  | connectAckReceived (attempt : Nat) (qtRx : QToken)
  | connected (qtTx : QToken)
deriving DecidableEq, Repr

/-- The state update performed by `connect_ack_received` on a poll cycle in
which the ack pop has **not** completed (`connect.rs` lines 304-318): once
`attempt > MAX_ACK_RECEIVED_ATTEMPTS` the machine falls back to
`InitiateConnectRequest` (keeping the outstanding pop token), otherwise it
stays in `ConnectAckReceived` with the attempt counter incremented.
States other than `ConnectAckReceived` are untouched by this branch. -/
def connectAckNoAck : ClientState → ClientState
  | .connectAckReceived attempt qtRx =>
      if attempt > MAX_ACK_RECEIVED_ATTEMPTS then
        .initiateConnectRequest (some qtRx)
      else
        .connectAckReceived (attempt + 1) qtRx
  | s => s

/-- Control-pipe messages of the Catloop handshake. `magicConnect` stands
for the `MAGIC_CONNECT` request cooked by `CatloopLibOS::cook_magic_connect`
(its byte value lives outside the provided sources). -/
inductive CtrlMsg where
  | magicConnect
  | ackPort (port : Nat)
deriving DecidableEq, Repr

/-- The `setup` step of the client state machine (`connect.rs` lines
180-196): it pushes a `MAGIC_CONNECT` request on the control duplex pipe
(obtaining the fresh push token `qtTx`) and moves to `ConnectRequestSent`,
returning `Pending`. The pushed message is reported alongside the next
state. -/
def connectSetup (qtRx : Option QToken) (qtTx : QToken) : ClientState × CtrlMsg :=
  (.connectRequestSent qtTx qtRx, .magicConnect)

/-- Helper: iterating the ack-less poll step keeps the machine in
`ConnectAckReceived`, counting attempts, for the first 1025 cycles. -/
lemma connectAckNoAck_iterate_le (q : QToken) :
    ∀ n, n ≤ MAX_ACK_RECEIVED_ATTEMPTS + 1 →
      connectAckNoAck^[n] (ClientState.connectAckReceived 0 q) =
        ClientState.connectAckReceived n q := by
  intro n
  induction n with
  | zero => intro _; rfl
  | succ m ih =>
    intro h
    rw [Function.iterate_succ_apply', ih (Nat.le_of_succ_le h)]
    have hm : ¬ (m > MAX_ACK_RECEIVED_ATTEMPTS) := by
      simp only [MAX_ACK_RECEIVED_ATTEMPTS] at h ⊢
      omega
    simp [connectAckNoAck, hm]

/-- Helper: the fall-back to `InitiateConnectRequest` happens exactly on
the 1026th consecutive ack-less poll cycle. -/
lemma connectAckNoAck_iterate_fallback (q : QToken) :
    connectAckNoAck^[MAX_ACK_RECEIVED_ATTEMPTS + 2]
        (ClientState.connectAckReceived 0 q) =
      ClientState.initiateConnectRequest (some q) := by
  rw [Function.iterate_succ_apply',
    connectAckNoAck_iterate_le q (MAX_ACK_RECEIVED_ATTEMPTS + 1) (Nat.le_refl _)]
  have : MAX_ACK_RECEIVED_ATTEMPTS + 1 > MAX_ACK_RECEIVED_ATTEMPTS :=
    Nat.lt_succ_self _
  simp [connectAckNoAck, this]

/-! ## Port-number round trip (`accept.rs` / `connect.rs`) -/

/-- Native-endian byte pair of a `u16` (`u16::to_ne_bytes`), modelled in
little-endian order; `u16FromNeBytes` inverts with the same order, so the
round trip is independent of the machine's actual endianness. -/
def u16ToNeBytes (p : Nat) : List Nat := [p % 256, p / 256 % 256]

/-- `u16::from_ne_bytes` over the same byte order as `u16ToNeBytes`. -/
def u16FromNeBytes (b0 b1 : Nat) : Nat := b0 + 256 * b1

/-- One segment of a scatter-gather array (`demi_sgaseg_t`): its byte
contents and recorded length. -/
structure SgaSeg where
  sgaseg_buf : List Nat
  sgaseg_len : Nat
deriving DecidableEq, Repr

/-- Scatter-gather array (`demi_sgarray_t`): ordered list of segments. -/
structure Sga where
  sga_segs : List SgaSeg
deriving DecidableEq, Repr

/-- The two-byte control message built by `send_port_number` (`accept.rs`
lines 188-201): `alloc_sgarray(size_of::<u16>())` yields one segment of
length 2, into which the port's native-endian bytes are copied. -/
def sendPortNumberMsg (port : Nat) : Sga := ⟨[⟨u16ToNeBytes port, 2⟩]⟩

/-- `extract_port_number` (`connect.rs` lines 326-337): reject any
scatter-gather array whose first segment is not exactly 2 bytes long with
`EAGAIN`, otherwise decode the two bytes as a native-endian `u16`. -/
def extract_port_number (sga : Sga) : Except Fail Nat :=
  let seg := sga.sga_segs.headD ⟨[], 0⟩
  if seg.sgaseg_len ≠ 2 then
    .error ⟨EAGAIN, "hashsake failed"⟩
  else
    .ok (u16FromNeBytes (seg.sgaseg_buf.getD 0 0) (seg.sgaseg_buf.getD 1 0))

/-- C10: decoding with `extract_port_number` the two-byte message that
`send_port_number` produces yields the original port number, and
`extract_port_number` fails with `EAGAIN` for every scatter-gather array
whose first segment length is not exactly 2. -/
theorem port_number_roundtrip :
    (∀ p : Nat, p < 65536 →
      extract_port_number (sendPortNumberMsg p) = .ok p) ∧
    (∀ sga : Sga, (sga.sga_segs.headD ⟨[], 0⟩).sgaseg_len ≠ 2 →
      extract_port_number sga = .error ⟨EAGAIN, "hashsake failed"⟩) := by
  constructor
  · intro p hp
    simp only [extract_port_number, sendPortNumberMsg, u16ToNeBytes,
      u16FromNeBytes, List.headD, List.getD]
    norm_num
    omega
  · intro sga h
    simp only [extract_port_number, if_pos h]

/-- Witness for C10 at port 4660 and at a 3-byte first segment. -/
theorem port_number_roundtrip_witness :
    extract_port_number (sendPortNumberMsg 4660) = .ok 4660 ∧
    extract_port_number ⟨[⟨[1, 2, 3], 3⟩]⟩ = .error ⟨EAGAIN, "hashsake failed"⟩ :=
  ⟨port_number_roundtrip.1 4660 (by decide),
   port_number_roundtrip.2 ⟨[⟨[1, 2, 3], 3⟩]⟩ (by decide)⟩

/-- C5 (amended): the constant is declared as 1024 (and the TCP stack's
default `handshake_retries` as 5), but the client keeps waiting while the
attempt counter is at most 1025: ack-less poll cycles 1 through 1025 leave
the machine in `ConnectAckReceived` with the counter equal to the number of
cycles, and only the 1026th consecutive ack-less cycle (the first with
`attempt > 1024`) falls back to `InitiateConnectRequest`, whose next poll
re-sends the `MAGIC_CONNECT` request and moves to `ConnectRequestSent`. -/
theorem catloop_connect_retry_bound :
    MAX_ACK_RECEIVED_ATTEMPTS = 1024 ∧
    tcpDefaultHandshakeRetries = 5 ∧
    (∀ (q : QToken) (n : Nat), n ≤ 1025 →
      connectAckNoAck^[n] (ClientState.connectAckReceived 0 q) =
        ClientState.connectAckReceived n q) ∧
    (∀ q : QToken,
      connectAckNoAck^[1026] (ClientState.connectAckReceived 0 q) =
        ClientState.initiateConnectRequest (some q)) ∧
    (∀ (qtRx : Option QToken) (qtTx : QToken),
      connectSetup qtRx qtTx =
        (ClientState.connectRequestSent qtTx qtRx, CtrlMsg.magicConnect)) := by
  refine ⟨rfl, rfl, ?_, ?_, fun _ _ => rfl⟩
  · intro q n hn
    exact connectAckNoAck_iterate_le q n hn
  · intro q
    exact connectAckNoAck_iterate_fallback q

/-- Witness for C5 at queue token 7: still waiting after 1025 ack-less
cycles, fallen back after 1026. -/
theorem catloop_connect_retry_bound_witness :
    connectAckNoAck^[1025] (ClientState.connectAckReceived 0 7) =
      ClientState.connectAckReceived 1025 7 ∧
    connectAckNoAck^[1026] (ClientState.connectAckReceived 0 7) =
      ClientState.initiateConnectRequest (some 7) :=
  ⟨catloop_connect_retry_bound.2.2.1 7 1025 (by decide),
   catloop_connect_retry_bound.2.2.2.1 7⟩

/-- C5 counterexample: after 1024 consecutive ack-less poll cycles — the
bound the claim says suffices — the machine is still in
`ConnectAckReceived` (attempt = 1024), not `InitiateConnectRequest`; even
the 1025th cycle does not fall back. -/
theorem catloop_connect_retry_bound_cex :
    connectAckNoAck^[1024] (ClientState.connectAckReceived 0 7) =
      ClientState.connectAckReceived 1024 7 ∧
    connectAckNoAck^[1024] (ClientState.connectAckReceived 0 7) ≠
      ClientState.initiateConnectRequest (some 7) ∧
    connectAckNoAck^[1025] (ClientState.connectAckReceived 0 7) ≠
      ClientState.initiateConnectRequest (some 7) := by
  have h1024 := connectAckNoAck_iterate_le 7 1024 (by decide)
  have h1025 := connectAckNoAck_iterate_le 7 1025 (by decide)
  refine ⟨h1024, ?_, ?_⟩
  · rw [h1024]; intro h; cases h
  · rw [h1025]; intro h; cases h

/-! ## Catmem pop path (`catmem/futures/pop.rs`) -/

/-- Maximum size for a pop operation (`PopFuture::POP_SIZE_MAX`). -/
def POP_SIZE_MAX : Nat := 9216

/-- Outcome of one `PopFuture::poll` call: still pending, ready with the
dequeued data bytes and the eof flag, or a crash of the process (the
`expect` on `DemiBuffer::trim` fires, or the `usize` subtraction feeding it
underflows). -/
inductive PopPoll where
  | pending
  | ready (data : List Nat) (eof : Bool)
  | abort
deriving DecidableEq, Repr

/-- The dequeue loop of `PopFuture::poll` (`pop.rs` lines 75-107). `size`
is the effective byte cap, `acc` the data bytes written so far (the low
bytes of the 16-bit ring entries already dequeued; `acc.length` is the
source's `index`), and `ring` the entries `try_dequeue` will yield before
reporting the ring empty. The buffer starts `size` bytes long and `trim`
removes bytes from its back, so after trimming `t` bytes the buffer holds
the first `size - t` of the `size` slots, of which the first `index` carry
data; `trim` panics when `t` exceeds the current length. -/
def popLoop (size : Nat) (acc : List Nat) : List Nat → PopPoll
  | [] =>
      if acc.length > 0 then
        -- `buf.trim(Self::POP_SIZE_MAX - index)` on a buffer of length `size`.
        if POP_SIZE_MAX < acc.length then .abort
        else if size < POP_SIZE_MAX - acc.length then .abort
        else .ready (acc.take (size - (POP_SIZE_MAX - acc.length))) false
      else .pending
  | x :: rest =>
      let high := x / 256 % 256
      let low := x % 256
      if high ≠ 0 then
        -- `buf.trim(size - index)`: keep exactly the `index` data bytes.
        .ready acc true
      else if size ≤ acc.length then
        -- `buf[index] = low` indexes out of bounds (reachable only with cap 0).
        .abort
      else
        let acc' := acc ++ [low]
        if size ≤ acc'.length then
          -- `index >= size`: `buf.trim(size - index) = trim 0`, all slots are data.
          .ready acc' false
        else popLoop size acc' rest

/-- `PopFuture::poll` (`pop.rs` lines 69-116): the effective cap is the
caller's `size`, or `POP_SIZE_MAX` when none was given. -/
def popPoll (size : Option Nat) (ring : List Nat) : PopPoll :=
  popLoop (size.getD POP_SIZE_MAX) [] ring

/-- C8 failing input: a pop with caller byte cap 2 — exactly what the
Catloop handshake issues via `pop(Some(size_of::<u16>()))` — against a ring
holding the single data entry `0x0041` and nothing more. The loop dequeues
one data byte, finds the ring empty, and calls
`buf.trim(POP_SIZE_MAX - 1) = trim 9215` on the 2-byte buffer, so the
`expect("cannot trim more bytes than the buffer has")` fires instead of
returning the byte with eof clear. An uncapped pop on the same ring returns
the byte, as the claim describes. -/
theorem catmem_pop_capped_partial_aborts :
    popPoll (some 2) [0x41] = .abort ∧
    popPoll none [0x41] = .ready [0x41] false := by
  constructor <;> decide

/-! ## DPDK transmit path (`catnip/runtime/network.rs`) -/

/-- Modelled from the spec: `MIN_PAYLOAD_SIZE` lives in the catnip
`protocols::ethernet2` module, which is not under the provided sources; the
wire format is standard Ethernet II (spec section 6), whose minimum frame
payload is 46 bytes. -/
def MIN_PAYLOAD_SIZE : Nat := 46

/-- Modelled from the spec: the capacity of a header-pool buffer
(`MemoryManager::alloc_header_mbuf` is not under the provided sources); the
small pool is "sized to hold protocol headers": Ethernet II (14) plus
maximal IPv4 (60) plus maximal TCP (60) headers. -/
def HEADER_MBUF_SIZE : Nat := 134

/-- Modelled from the spec: the capacity of a body-pool buffer
(`MemoryManager::alloc_body_mbuf` is not under the provided sources); the
large pool is "sized to hold a full MTU payload", jumbo frames included. -/
def BODY_MBUF_SIZE : Nat := 9216

/-- A packet body handed to `transmit` (`DPDKBuf`): either an mbuf already
managed by the pools or an externally owned byte slice. -/
inductive DPDKBuf where
  | managed (bytes : List Nat)
  | external (bytes : List Nat)
deriving DecidableEq, Repr

/-- Byte contents of a body buffer. -/
def DPDKBuf.bytes : DPDKBuf → List Nat
  | managed b => b
  | external b => b

/-- The frame handed to `rte_eth_tx_burst`: a single inlined mbuf, or a
header mbuf chained with a body mbuf via `rte_pktmbuf_chain`. -/
inductive Frame where
  | inline (bytes : List Nat)
  | chained (hdr body : List Nat)
deriving DecidableEq, Repr

/-- Total length of a transmitted frame. -/
def Frame.frameLen : Frame → Nat
  | inline bytes => bytes.length
  | chained hdr body => hdr.length + body.length

/-- Data bytes of an optional body. -/
def bodyBytes (body : Option DPDKBuf) : List Nat :=
  (body.map DPDKBuf.bytes).getD []

lemma bodyBytes_some (b : DPDKBuf) : bodyBytes (some b) = b.bytes := rfl

lemma bodyBytes_none : bodyBytes none = [] := rfl

/-- `NetworkRuntime::transmit` for the DPDK runtime (`network.rs` lines
43-136), as a function from the serialized header, the optional body, and
the pool buffer capacities to the frame enqueued for hardware send;
`Except.error` marks a failing `assert!`. The header is written into a
fresh header mbuf (assert: it fits); a body larger than the remaining
inline space is chained (assert: header plus body reach
`MIN_PAYLOAD_SIZE`; an external body must fit a body mbuf), otherwise the
body is inlined after the header and the frame is zero-padded up to
`MIN_PAYLOAD_SIZE` before being trimmed to
`max (header_size + body.len()) MIN_PAYLOAD_SIZE`. -/
def transmit (headerCap bodyCap : Nat) (hdr : List Nat) (body : Option DPDKBuf) :
    Except String Frame :=
  if hdr.length ≤ headerCap then
    match body with
    | some b =>
        let bl := b.bytes.length
        let inlineSpace := headerCap - hdr.length
        if bl > inlineSpace then
          if MIN_PAYLOAD_SIZE ≤ hdr.length + bl then
            match b with
            | .managed bytes => .ok (.chained hdr bytes)
            | .external bytes =>
                if bytes.length ≤ bodyCap then .ok (.chained hdr bytes)
                else .error "assert failed: mbuf.len() < bytes.len()"
          else .error "assert failed: header_size + body.len() < MIN_PAYLOAD_SIZE"
        else
          let frameSize := max (hdr.length + bl) MIN_PAYLOAD_SIZE
          .ok (.inline (hdr ++ b.bytes ++
            List.replicate (frameSize - (hdr.length + bl)) 0))
    | none =>
        let frameSize := max hdr.length MIN_PAYLOAD_SIZE
        .ok (.inline (hdr ++ List.replicate (frameSize - hdr.length) 0))
  else .error "assert failed: header_size > header_mbuf.len()"

/-- C9: for every packet whose header fits a header mbuf (and whose
external body, if any, fits a body mbuf), `transmit` hits no failing
assertion and hands the hardware a frame of at least `MIN_PAYLOAD_SIZE`
bytes; when header plus body fall short of `MIN_PAYLOAD_SIZE` the frame is
extended to exactly `MIN_PAYLOAD_SIZE` with zero-filled padding, and in the
chained case header size plus body size is at least `MIN_PAYLOAD_SIZE`. -/
theorem dpdk_transmit_min_frame :
    ∀ (hdr : List Nat) (body : Option DPDKBuf),
      hdr.length ≤ HEADER_MBUF_SIZE →
      (∀ bytes, body = some (DPDKBuf.external bytes) →
        bytes.length ≤ BODY_MBUF_SIZE) →
      ∃ f, transmit HEADER_MBUF_SIZE BODY_MBUF_SIZE hdr body = .ok f ∧
        MIN_PAYLOAD_SIZE ≤ f.frameLen ∧
        (hdr.length + (bodyBytes body).length < MIN_PAYLOAD_SIZE →
          f = .inline (hdr ++ bodyBytes body ++
            List.replicate
              (MIN_PAYLOAD_SIZE - (hdr.length + (bodyBytes body).length)) 0) ∧
          f.frameLen = MIN_PAYLOAD_SIZE) ∧
        (∀ h b, f = .chained h b → MIN_PAYLOAD_SIZE ≤ h.length + b.length) := by
  intro hdr body hhdr hext
  match body with
  | none =>
      refine ⟨.inline (hdr ++ List.replicate (max hdr.length MIN_PAYLOAD_SIZE - hdr.length) 0),
        ?_, ?_, ?_, ?_⟩
      · simp only [transmit, if_pos hhdr]
      · simp only [Frame.frameLen, List.length_append, List.length_replicate]
        omega
      · intro hlt
        simp only [bodyBytes_none, List.length_nil, Nat.add_zero] at hlt ⊢
        have hmax : max hdr.length MIN_PAYLOAD_SIZE = MIN_PAYLOAD_SIZE := by omega
        constructor
        · rw [hmax]
          simp
        · simp only [Frame.frameLen, List.length_append, List.length_replicate, hmax]
          omega
      · intro h b hfb
        exact absurd hfb (by simp)
  | some (DPDKBuf.managed bytes) =>
      by_cases hbig : bytes.length > HEADER_MBUF_SIZE - hdr.length
      · have hmin : MIN_PAYLOAD_SIZE ≤ hdr.length + bytes.length := by
          simp only [MIN_PAYLOAD_SIZE, HEADER_MBUF_SIZE] at *
          omega
        refine ⟨.chained hdr bytes, ?_, ?_, ?_, ?_⟩
        · simp only [transmit, if_pos hhdr, DPDKBuf.bytes, if_pos hbig, if_pos hmin]
        · simpa only [Frame.frameLen] using hmin
        · intro hlt
          simp only [bodyBytes_some, DPDKBuf.bytes] at hlt
          omega
        · intro h b hfb
          cases hfb
          simpa only [Frame.frameLen] using hmin
      · refine ⟨.inline (hdr ++ bytes ++
          List.replicate
            (max (hdr.length + bytes.length) MIN_PAYLOAD_SIZE
              - (hdr.length + bytes.length)) 0), ?_, ?_, ?_, ?_⟩
        · simp only [transmit, if_pos hhdr, DPDKBuf.bytes, if_neg hbig]
        · simp only [Frame.frameLen, List.length_append, List.length_replicate]
          omega
        · intro hlt
          simp only [bodyBytes_some, DPDKBuf.bytes] at hlt ⊢
          have hmax : max (hdr.length + bytes.length) MIN_PAYLOAD_SIZE
              = MIN_PAYLOAD_SIZE := by omega
          refine ⟨by rw [hmax], ?_⟩
          simp only [Frame.frameLen, List.length_append, List.length_replicate, hmax]
          omega
        · intro h b hfb
          exact absurd hfb (by simp)
  | some (DPDKBuf.external bytes) =>
      have hfit : bytes.length ≤ BODY_MBUF_SIZE := hext bytes rfl
      by_cases hbig : bytes.length > HEADER_MBUF_SIZE - hdr.length
      · have hmin : MIN_PAYLOAD_SIZE ≤ hdr.length + bytes.length := by
          simp only [MIN_PAYLOAD_SIZE, HEADER_MBUF_SIZE] at *
          omega
        refine ⟨.chained hdr bytes, ?_, ?_, ?_, ?_⟩
        · simp only [transmit, if_pos hhdr, DPDKBuf.bytes, if_pos hbig, if_pos hmin,
            if_pos hfit]
        · simpa only [Frame.frameLen] using hmin
        · intro hlt
          simp only [bodyBytes_some, DPDKBuf.bytes] at hlt
          omega
        · intro h b hfb
          cases hfb
          simpa only [Frame.frameLen] using hmin
      · refine ⟨.inline (hdr ++ bytes ++
          List.replicate
            (max (hdr.length + bytes.length) MIN_PAYLOAD_SIZE
              - (hdr.length + bytes.length)) 0), ?_, ?_, ?_, ?_⟩
        · simp only [transmit, if_pos hhdr, DPDKBuf.bytes, if_neg hbig]
        · simp only [Frame.frameLen, List.length_append, List.length_replicate]
          omega
        · intro hlt
          simp only [bodyBytes_some, DPDKBuf.bytes] at hlt ⊢
          have hmax : max (hdr.length + bytes.length) MIN_PAYLOAD_SIZE
              = MIN_PAYLOAD_SIZE := by omega
          refine ⟨by rw [hmax], ?_⟩
          simp only [Frame.frameLen, List.length_append, List.length_replicate, hmax]
          omega
        · intro h b hfb
          exact absurd hfb (by simp)

/-- Witness for C9: a 40-byte header with a 2-byte inlined body is padded
with four zero bytes to a 46-byte frame. -/
theorem dpdk_transmit_min_frame_witness :
    ∃ f, transmit HEADER_MBUF_SIZE BODY_MBUF_SIZE (List.replicate 40 7)
        (some (DPDKBuf.managed [1, 2])) = .ok f ∧
      MIN_PAYLOAD_SIZE ≤ f.frameLen ∧
      ((List.replicate 40 7).length
          + (bodyBytes (some (DPDKBuf.managed [1, 2]))).length < MIN_PAYLOAD_SIZE →
        f = .inline (List.replicate 40 7 ++ bodyBytes (some (DPDKBuf.managed [1, 2])) ++
          List.replicate
            (MIN_PAYLOAD_SIZE - ((List.replicate 40 7).length
              + (bodyBytes (some (DPDKBuf.managed [1, 2]))).length)) 0) ∧
        f.frameLen = MIN_PAYLOAD_SIZE) ∧
      (∀ h b, f = .chained h b → MIN_PAYLOAD_SIZE ≤ h.length + b.length) :=
  dpdk_transmit_min_frame (List.replicate 40 7) (some (DPDKBuf.managed [1, 2]))
    (by decide) (by intro bytes h; cases h)

/-! ## Catloop server accept state machine (`catloop/futures/accept.rs`) -/

/-- The completion opcodes a control-pipe operation can report
(`demi_opcode_t`, restricted to the cases the accept path inspects). -/
inductive DemiOpcode where
  | pop
  | push
  | failed
  | other
deriving DecidableEq, Repr

/-- Server-side states in the connection establishment protocol
(`accept.rs`, `enum ServerState`); payloads the claims never inspect
(duplex pipe handles, the remote address) are reduced to the port. -/
inductive ServerState where
  | listenAndAccept (qtRx : QToken)
  | connect (qtTx : QToken)
  | connected (qtClose : QToken) (remotePort : Nat)
deriving DecidableEq, Repr

/-- `check_connect_request` (`accept.rs` lines 151-185) on a completed
control-pipe operation: a completed pop yields whether the payload is a
valid `MAGIC_CONNECT` message (`CatloopLibOS::is_magic_connect`, whose
verdict is the `magicOk` argument), a failed completion yields its error,
and any other opcode hits `unreachable!` — modelled as `none`. -/
def check_connect_request (opcode : DemiOpcode) (ret : Nat) (magicOk : Bool) :
    Option (Except Fail Bool) :=
  match opcode with
  | .pop => some (.ok magicOk)
  | .failed => some (.error ⟨ret, "failed to establish connection"⟩)
  | _ => none

/-- Externally visible effects the `listen_and_accept` step can issue:
creating the data duplex pipe, pushing the new port number on the control
pipe, or (re-)issuing a pop on the control pipe with the given byte cap. -/
inductive AcceptAction where
  | createDataPipe (port : Nat)
  | pushPort (port : Nat)
  | popCtrl (size : Option Nat)
deriving DecidableEq, Repr

/-- Result of one poll of the accept future. -/
inductive AcceptPollRes where
  | pending
  | readyErr (e : Fail)
  | crashed
deriving DecidableEq, Repr

/-- `listen_and_accept` (`accept.rs` lines 204-252). `popped` is what
`DuplexPipe::poll` reports for the outstanding control pop `qtRx`: `none`
while the pop is incomplete, otherwise the completed operation's opcode,
return value, and `is_magic_connect` verdict. On a valid request the step
creates the data pipe, pushes the new port (token `freshQt`), and moves to
`Connect`; on an invalid request it re-issues an **unbounded** pop
(token `freshQt`) and stays in `ListenAndAccept`; on error it returns
`Ready(Err)`. All non-error outcomes return `Pending`. -/
def listen_and_accept (newPort : Nat) (qtRx : QToken)
    (popped : Option (DemiOpcode × Nat × Bool)) (freshQt : QToken) :
    ServerState × AcceptPollRes × List AcceptAction :=
  match popped with
  | none => (.listenAndAccept qtRx, .pending, [])
  | some (opc, ret, magicOk) =>
      match check_connect_request opc ret magicOk with
      | some (.ok true) =>
          (.connect freshQt, .pending,
            [.createDataPipe newPort, .pushPort newPort])
      | some (.ok false) =>
          (.listenAndAccept freshQt, .pending, [.popCtrl none])
      | some (.error e) => (.listenAndAccept qtRx, .readyErr e, [])
      | none => (.listenAndAccept qtRx, .crashed, [])

/-- C4: whenever the payload popped from the control pipe is not a valid
`MAGIC_CONNECT` message, the accept step re-issues an unbounded pop on the
control pipe, stays in `ListenAndAccept`, and returns `Pending`; no data
pipe is created and no port number is sent. -/
theorem catloop_accept_invalid_magic_rearms :
    ∀ (newPort : Nat) (qtRx freshQt : QToken) (ret : Nat),
      listen_and_accept newPort qtRx (some (DemiOpcode.pop, ret, false)) freshQt =
        (ServerState.listenAndAccept freshQt, AcceptPollRes.pending,
          [AcceptAction.popCtrl none]) ∧
      (∀ p, AcceptAction.createDataPipe p ∉
        (listen_and_accept newPort qtRx (some (DemiOpcode.pop, ret, false))
          freshQt).2.2) ∧
      (∀ p, AcceptAction.pushPort p ∉
        (listen_and_accept newPort qtRx (some (DemiOpcode.pop, ret, false))
          freshQt).2.2) := by
  intro newPort qtRx freshQt ret
  refine ⟨rfl, ?_, ?_⟩ <;>
    simp [listen_and_accept, check_connect_request]

/-! ## Queue-layer listen semantics (spec-modelled)

The inetstack TCP listen implementation is exercised only through the
integration tests under the provided sources (`tcp-test/listen/mod.rs`);
the implementation itself is not. The following definitions model it from
spec sections 4.4.1, 4.4.4 and 6. -/

/-- Modelled from the spec: the per-queue-descriptor TCP socket state kept
by the inetstack queue layer (the `Socket`/queue-table implementation is
not under the provided sources). A listening or accepting socket carries
the capacity of its accept queue. -/
inductive SocketState where
  | unbound
  | bound (addr : Nat × Nat)
  | listening (backlogCap : Nat)
  | accepting (backlogCap : Nat)
  | connecting
  | closed
deriving DecidableEq, Repr

/-- Modelled from the spec: `listen(qd, backlog)` (implementation not under
the provided sources). Per spec sections 4.4.1/4.4.4/6: an unbound socket
fails with "destination address required"; an already-listening, accepting,
or connecting socket fails with "address in use"; a closed queue descriptor
fails with "bad queue descriptor"; a bound socket starts listening with an
accept queue bounded by `backlog`, with a minimum of 1 even if 0 is
requested and capped at the platform's `SOMAXCONN`. -/
def tcp_listen (st : SocketState) (backlog : Nat) : Except Fail SocketState :=
  match st with
  | .unbound => .error ⟨EDESTADDRREQ, "destination address required"⟩
  | .bound _ => .ok (.listening (min (max backlog 1) SOMAXCONN))
  | .listening _ => .error ⟨EADDRINUSE, "address in use"⟩
  | .accepting _ => .error ⟨EADDRINUSE, "address in use"⟩
  | .connecting => .error ⟨EADDRINUSE, "address in use"⟩
  | .closed => .error ⟨EBADF, "bad queue descriptor"⟩

/-- C1: `listen` on an unbound socket fails with `EDESTADDRREQ`, on a
listening or accepting socket with `EADDRINUSE`, and on a closed queue
descriptor with `EBADF`. -/
theorem tcp_listen_error_cases :
    ∀ backlog : Nat,
      tcp_listen SocketState.unbound backlog =
        .error ⟨EDESTADDRREQ, "destination address required"⟩ ∧
      (∀ k, tcp_listen (SocketState.listening k) backlog =
        .error ⟨EADDRINUSE, "address in use"⟩) ∧
      (∀ k, tcp_listen (SocketState.accepting k) backlog =
        .error ⟨EADDRINUSE, "address in use"⟩) ∧
      tcp_listen SocketState.closed backlog =
        .error ⟨EBADF, "bad queue descriptor"⟩ :=
  fun _ => ⟨rfl, fun _ => rfl, fun _ => rfl, rfl⟩

/-- C6: on a bound socket `listen` succeeds for every requested backlog;
the accept-queue capacity is `min (max backlog 1) SOMAXCONN`, so a backlog
of 0 is treated as 1 and a backlog above `SOMAXCONN` is capped. -/
theorem tcp_listen_backlog_clamped :
    ∀ (addr : Nat × Nat) (backlog : Nat),
      tcp_listen (SocketState.bound addr) backlog =
        .ok (SocketState.listening (min (max backlog 1) SOMAXCONN)) ∧
      (backlog = 0 →
        tcp_listen (SocketState.bound addr) backlog =
          .ok (SocketState.listening 1)) ∧
      (SOMAXCONN < backlog →
        tcp_listen (SocketState.bound addr) backlog =
          .ok (SocketState.listening SOMAXCONN)) := by
  intro addr backlog
  refine ⟨rfl, ?_, ?_⟩
  · intro h
    subst h
    rfl
  · intro h
    have hcap : min (max backlog 1) SOMAXCONN = SOMAXCONN := by
      simp only [SOMAXCONN] at h ⊢
      omega
    simp only [tcp_listen, hcap]

/-- Witness for C6 at backlog 0 and backlog `SOMAXCONN + 1 = 129`. -/
theorem tcp_listen_backlog_clamped_witness :
    tcp_listen (SocketState.bound (10, 23456)) 0 =
      .ok (SocketState.listening 1) ∧
    tcp_listen (SocketState.bound (10, 23456)) 129 =
      .ok (SocketState.listening SOMAXCONN) :=
  ⟨(tcp_listen_backlog_clamped (10, 23456) 0).2.1 rfl,
   (tcp_listen_backlog_clamped (10, 23456) 129).2.2 (by decide)⟩

/-! ## Queue-token wait / close semantics (spec-modelled)

The queue-token table, `wait`, and `close` live in the LibOS layer, which
is exercised only through the integration tests under the provided
sources; the following definitions model spec sections 4.5 and 5. -/

/-- Completion record (`demi_qresult_t`): opcode, owning queue descriptor,
and return code. -/
structure QRec where
  opcode : DemiOpcode
  qr_qd : Nat
  qr_ret : Nat
deriving DecidableEq, Repr

/-- Modelled from the spec: the status of a scheduled operation in the
queue-token table (the scheduler slots are not under the provided
sources). -/
inductive OpStatus where
  | pending
  | completed (qr : QRec)
  | cancelled
deriving DecidableEq, Repr

/-- The queue-token table: each live token with its owning queue
descriptor and status. -/
abbrev OpTable : Type := List (QToken × Nat × OpStatus)

/-- Resolve a queue token to its owning queue descriptor and status. -/
def lookupOp : OpTable → QToken → Option (Nat × OpStatus)
  | [], _ => none
  | e :: rest, qt => if e.1 = qt then some e.2 else lookupOp rest qt

/-- Reaping consumes a token: remove it from the table. -/
def removeOp : OpTable → QToken → OpTable
  | [], _ => []
  | e :: rest, qt => if e.1 = qt then removeOp rest qt else e :: removeOp rest qt

/-- Modelled from the spec: `close(qd)` "attempts to cancel every
outstanding operation bound to it; each such operation completes with
cancelled" (spec section 4.5; the implementation is not under the provided
sources). Pending operations bound to `qd` become cancelled; all other
entries are untouched. -/
def closeQd : OpTable → Nat → OpTable
  | [], _ => []
  | (qt, qd', st) :: rest, qd =>
      (if qd' = qd ∧ st = OpStatus.pending then (qt, qd', OpStatus.cancelled)
       else (qt, qd', st)) :: closeQd rest qd

/-- The environment completing a pending operation with record `qr`
(e.g. an accepted connection arriving). -/
def completeOp : OpTable → QToken → QRec → OpTable
  | [], _, _ => []
  | (qt', qd', st) :: rest, qt, qr =>
      (if qt' = qt ∧ st = OpStatus.pending then (qt', qd', OpStatus.completed qr)
       else (qt', qd', st)) :: completeOp rest qt qr

/-- Modelled from the spec: one `wait(qt, timeout)` whose busy-poll
deadline has expired (spec sections 4.5 and 5; the implementation is not
under the provided sources). A still-pending operation yields "timed out"
and leaves the table untouched; a completed operation is reaped and its
record returned; a cancelled operation is reaped and yields a failed
record carrying `ECANCELED` on its owning queue descriptor. -/
def waitExpired (tbl : OpTable) (qt : QToken) : Except Fail QRec × OpTable :=
  match lookupOp tbl qt with
  | some (_, .pending) => (.error ⟨ETIMEDOUT, "timed out"⟩, tbl)
  | some (_, .completed qr) => (.ok qr, removeOp tbl qt)
  | some (qd, .cancelled) => (.ok ⟨.failed, qd, ECANCELED⟩, removeOp tbl qt)
  | none => (.error ⟨EBADF, "invalid queue token"⟩, tbl)

/-- Helper: closing the owning queue descriptor turns a pending token into
a cancelled one. -/
lemma lookupOp_closeQd (tbl : OpTable) (qt : QToken) (qd : Nat)
    (h : lookupOp tbl qt = some (qd, OpStatus.pending)) :
    lookupOp (closeQd tbl qd) qt = some (qd, OpStatus.cancelled) := by
  induction tbl with
  | nil => simp [lookupOp] at h
  | cons e rest ih =>
    obtain ⟨qt', qd', st⟩ := e
    by_cases hqt : qt' = qt
    · subst hqt
      simp only [lookupOp, if_pos rfl] at h
      obtain ⟨hqd, hst⟩ : qd' = qd ∧ st = OpStatus.pending := by
        injection h with h'
        exact ⟨congrArg Prod.fst h', congrArg Prod.snd h'⟩
      subst hqd
      subst hst
      simp [closeQd, lookupOp]
    · simp only [lookupOp, if_neg hqt] at h
      have := ih h
      simp only [closeQd]
      split <;> simpa [lookupOp, hqt]

/-- Helper: completing a pending token records its completion. -/
lemma lookupOp_completeOp (tbl : OpTable) (qt : QToken) (qd : Nat) (qr : QRec)
    (h : lookupOp tbl qt = some (qd, OpStatus.pending)) :
    lookupOp (completeOp tbl qt qr) qt = some (qd, OpStatus.completed qr) := by
  induction tbl with
  | nil => simp [lookupOp] at h
  | cons e rest ih =>
    obtain ⟨qt', qd', st⟩ := e
    by_cases hqt : qt' = qt
    · subst hqt
      simp only [lookupOp, if_pos rfl] at h
      obtain ⟨hqd, hst⟩ : qd' = qd ∧ st = OpStatus.pending := by
        injection h with h'
        exact ⟨congrArg Prod.fst h', congrArg Prod.snd h'⟩
      subst hqd
      subst hst
      simp [completeOp, lookupOp]
    · simp only [lookupOp, if_neg hqt] at h
      have := ih h
      simp only [completeOp]
      split <;> simpa [lookupOp, hqt]

/-- C2: closing a queue descriptor with an outstanding pending operation
cancels it, and a subsequent `wait` on that operation's queue token
returns a failed completion record carrying `ECANCELED` — neither a
timeout nor a success. -/
theorem close_cancels_pending_wait :
    ∀ (tbl : OpTable) (qt : QToken) (qd : Nat),
      lookupOp tbl qt = some (qd, OpStatus.pending) →
      lookupOp (closeQd tbl qd) qt = some (qd, OpStatus.cancelled) ∧
      (waitExpired (closeQd tbl qd) qt).1 =
        .ok ⟨DemiOpcode.failed, qd, ECANCELED⟩ ∧
      (waitExpired (closeQd tbl qd) qt).1 ≠ .error ⟨ETIMEDOUT, "timed out"⟩ ∧
      ∀ qr : QRec, qr.qr_ret = 0 → (waitExpired (closeQd tbl qd) qt).1 ≠ .ok qr := by
  intro tbl qt qd h
  have hc := lookupOp_closeQd tbl qt qd h
  refine ⟨hc, ?_, ?_, ?_⟩
  · simp [waitExpired, hc]
  · simp [waitExpired, hc]
  · intro qr hqr
    simp only [waitExpired, hc]
    intro hcontra
    have : ECANCELED = qr.qr_ret := by
      have h' := congrArg (fun r =>
        match r with
        | Except.ok q => q.qr_ret
        | Except.error _ => 0) hcontra
      simpa using h'
    rw [hqr] at this
    simp [ECANCELED] at this

/-- Witness for C2: a one-entry table holding pending token 3 on queue
descriptor 5. -/
theorem close_cancels_pending_wait_witness :
    lookupOp (closeQd [((3 : QToken), 5, OpStatus.pending)] 5) 3 =
      some (5, OpStatus.cancelled) ∧
    (waitExpired (closeQd [((3 : QToken), 5, OpStatus.pending)] 5) 3).1 =
      .ok ⟨DemiOpcode.failed, 5, ECANCELED⟩ :=
  ⟨(close_cancels_pending_wait [((3 : QToken), 5, OpStatus.pending)] 3 5 rfl).1,
   (close_cancels_pending_wait [((3 : QToken), 5, OpStatus.pending)] 3 5 rfl).2.1⟩

/-- C3: an expired `wait` on a still-pending operation returns "timed out"
and leaves the token table untouched — the token stays valid, so a later
`wait` still observes the operation's eventual completion, or its
cancellation by `close`. -/
theorem wait_timeout_keeps_token :
    ∀ (tbl : OpTable) (qt : QToken) (qd : Nat),
      lookupOp tbl qt = some (qd, OpStatus.pending) →
      waitExpired tbl qt = (.error ⟨ETIMEDOUT, "timed out"⟩, tbl) ∧
      (∀ qr : QRec, (waitExpired (completeOp tbl qt qr) qt).1 = .ok qr) ∧
      (waitExpired (closeQd tbl qd) qt).1 =
        .ok ⟨DemiOpcode.failed, qd, ECANCELED⟩ := by
  intro tbl qt qd h
  refine ⟨by simp [waitExpired, h], ?_, ?_⟩
  · intro qr
    have hc := lookupOp_completeOp tbl qt qd qr h
    simp [waitExpired, hc]
  · have hc := lookupOp_closeQd tbl qt qd h
    simp [waitExpired, hc]

/-- Witness for C3 on the same one-entry table. -/
theorem wait_timeout_keeps_token_witness :
    waitExpired [((3 : QToken), 5, OpStatus.pending)] 3 =
      (.error ⟨ETIMEDOUT, "timed out"⟩, [((3 : QToken), 5, OpStatus.pending)]) ∧
    (waitExpired (completeOp [((3 : QToken), 5, OpStatus.pending)] 3
        ⟨DemiOpcode.pop, 5, 0⟩) 3).1 = .ok ⟨DemiOpcode.pop, 5, 0⟩ :=
  ⟨(wait_timeout_keeps_token [((3 : QToken), 5, OpStatus.pending)] 3 5 rfl).1,
   (wait_timeout_keeps_token [((3 : QToken), 5, OpStatus.pending)] 3 5 rfl).2.1
     ⟨DemiOpcode.pop, 5, 0⟩⟩

/-! ## Buffer-pool allocation failure (C7)

The repository has two allocators behind `alloc_sga`. The catnip DPDK
runtime's delegating trait implementation **is** under the provided
sources (`catnip/runtime/memory/mod.rs` lines 40-48) and returns a bare
`dmtr_sgarray_t` — its signature has no `Result`/`Fail` channel. The
shared-memory (catmem) LibOS's `CatmemLibOS::alloc_sgarray` is not under
the provided sources, but its in-src caller `send_port_number`
(`catloop/futures/accept.rs` line 193) applies the `?` operator to it,
confirming its `Result<demi_sgarray_t, Fail>` error channel. -/

/-- `dmtr_sgarray_t`, the return type of the catnip DPDK runtime's
`MemoryRuntime::alloc_sgarray` (`catnip/runtime/memory/mod.rs` line 41):
a bare scatter-gather array — segment count and segments — with no errno
field and no error variant. -/
structure dmtr_sgarray_t where
  sga_numsegs : Nat
  sga_segs : List SgaSeg
deriving DecidableEq, Repr

/-- The catnip DPDK runtime's `alloc_sgarray`. The in-src signature
`fn alloc_sgarray(&self, size: usize) -> dmtr_sgarray_t` fixes the
caller-visible outcomes — either an array is returned (`some`) or the
call does not return normally (`none`: the absent `MemoryManager` body
aborts) — so no `Fail` error value can reach the caller, whatever the
absent body does on exhaustion; the model maps pool exhaustion to `none`.
The pool inventory is abstracted to its count of free buffers. -/
def catnip_alloc_sgarray (freeBufs size : Nat) : Option dmtr_sgarray_t :=
  if freeBufs = 0 then none
  else some ⟨1, [⟨List.replicate size 0, size⟩]⟩

/-- Modelled from the spec: `CatmemLibOS::alloc_sgarray`, the
shared-memory LibOS's allocator (its body is not under the provided
sources; its in-src caller in `accept.rs` line 193 confirms the
`Result<demi_sgarray_t, Fail>` return type). Per spec section 4.1, pool
exhaustion returns the retriable "resource exhausted" error value. -/
def catmem_alloc_sgarray (freeBufs size : Nat) : Except Fail Sga :=
  if freeBufs = 0 then .error ⟨ENOMEM, "resource exhausted"⟩
  else .ok ⟨[⟨List.replicate size 0, size⟩]⟩

/-- C7 counterexample: at an exhausted pool and a 64-byte request, the
catnip DPDK `alloc_sgarray` — the claim's cited code — hands its caller
no array, and in particular no retriable `ENOMEM` error value: its return
type `dmtr_sgarray_t` admits no error case at all, so the claimed error
value cannot reach the caller on this path. -/
theorem catnip_alloc_sga_no_error_value_cex :
    catnip_alloc_sgarray 0 64 = none ∧
    ∀ sga : dmtr_sgarray_t, catnip_alloc_sgarray 0 64 ≠ some sga := by
  refine ⟨rfl, ?_⟩
  intro sga h
  simp [catnip_alloc_sgarray] at h

/-- C7 (amended): when the buffer pool cannot satisfy an allocation, the
shared-memory (catmem) LibOS's `alloc_sgarray` returns the retriable
`ENOMEM` error value to the caller — never a buffer; the catnip DPDK
runtime's `alloc_sgarray`, whose return type carries no error case,
instead returns no array at all on exhaustion, so no error value reaches
its caller there. -/
theorem alloc_sga_oom_catmem_error_catnip_none :
    ∀ (freeBufs size : Nat), freeBufs = 0 →
      catmem_alloc_sgarray freeBufs size =
        .error ⟨ENOMEM, "resource exhausted"⟩ ∧
      errnoRetriable ENOMEM = true ∧
      (∀ sga : Sga, catmem_alloc_sgarray freeBufs size ≠ .ok sga) ∧
      catnip_alloc_sgarray freeBufs size = none := by
  intro freeBufs size h
  subst h
  refine ⟨rfl, rfl, ?_, rfl⟩
  intro sga
  simp [catmem_alloc_sgarray]

/-- Witness for C7 on an exhausted pool and a 64-byte request. -/
theorem alloc_sga_oom_catmem_error_catnip_none_witness :
    catmem_alloc_sgarray 0 64 = .error ⟨ENOMEM, "resource exhausted"⟩ ∧
    catnip_alloc_sgarray 0 64 = none :=
  ⟨(alloc_sga_oom_catmem_error_catnip_none 0 64 rfl).1,
   (alloc_sga_oom_catmem_error_catnip_none 0 64 rfl).2.2.2⟩
